import Mathlib

/-!
Verification of the state reconciliation and HTTP client layer of the
terraform-provider-thecloud repository, against its natural-language
specification.

The Go code is shallowly embedded: the HTTP response a server would send is
modeled as a status code plus an optional JSON body (none models a body
whose bytes are not well-formed JSON); Go errors are modeled as
Option String carrying the error text (none models a nil error); Go
pointers to entities are modeled as Option values (none models a nil
pointer).  All definitions are translated from internal/client/client.go
and the resource files under internal/resources unless a doc comment says
otherwise.
-/

namespace TheCloud

/-- JSON values as decoded by encoding/json.  Numbers are modeled as
integers (no claim exercises non-integral numerics).  Objects are field
lists; Go takes the last value when a key repeats, which lookupLast
mirrors. -/
inductive Json where
  | null : Json
  | bool (b : Bool) : Json
  | num (n : Int) : Json
  | str (s : String) : Json
  | arr (elems : List Json) : Json
  | obj (fields : List (String × Json)) : Json

/-- Field lookup in a decoded JSON object: the last binding for a key wins,
matching the sequential-overwrite behavior of encoding/json on duplicate
keys. -/
def lookupLast (fields : List (String × Json)) (key : String) : Option Json :=
  fields.foldl (fun acc p => if p.1 = key then some p.2 else acc) none

/-- APIError from client.go: the structured error shape of the envelope. -/
structure APIError where
  type : String
  message : String
  code : String

/-- The Error method of APIError in client.go:
fmt.Sprintf of the pattern [type] message (code: code). -/
def APIError.errorText (e : APIError) : String :=
  "[" ++ e.type ++ "] " ++ e.message ++ " (code: " ++ e.code ++ ")"

/-- The HTTP response the server answers with: status code plus body.
A body of none models bytes that are not well-formed JSON. -/
structure Response where
  statusCode : Nat
  body : Option Json

/-- The message handleError in client.go extracts from an error body, when
one of the two documented error shapes is present: the error field is a
bare string, or the error field is an object whose message field is a
string.  Returns none exactly when the Go switch falls through to the
generic fallback: the body is not valid JSON, is not an object, has no
error field, the error field is null or of another type, or the error
object lacks a string message. -/
def errorMessageOf (body : Option Json) : Option String :=
  match body with
  | some (Json.obj fields) =>
    match lookupLast fields "error" with
    | some (Json.str s) => some s
    | some (Json.obj o) =>
      match lookupLast o "message" with
      | some (Json.str m) => some m
      | _ => none
    | _ => none
  | _ => none

/-- handleError from client.go: resolve a non-2xx body to an error string.
When a message is extracted it is prefixed with the numeric HTTP status in
brackets (fmt.Errorf with pattern [status] message); otherwise the
fallback errUnexpectedStatus text is produced. -/
def handleError (status : Nat) (body : Option Json) : String :=
  match errorMessageOf body with
  | some m => "[" ++ toString status ++ "] " ++ m
  | none => "unexpected status code: " ++ toString status

/-- How a concrete entity type decodes from the data payload: its Go zero
value, and json.Unmarshal of a JSON value into a current value of the
type (none models an unmarshal type error). -/
structure EntityCodec (α : Type) where
  zero : α
  unmarshalInto : Json → α → Option α

/-- Decoding one string-typed struct field, as json.Unmarshal does:
a JSON null leaves the field untouched, a string overwrites it, anything
else is a type error. -/
def decodeStrField (current : String) (j : Json) : Option String :=
  match j with
  | Json.null => some current
  | Json.str s => some s
  | _ => none

/-- Decode of the APIError struct nested in the envelope, from a JSON
object: each of type, message, code is absent-or-null (field keeps its
zero value, the empty string), or a string; any other type fails the
decode.  Unknown fields are ignored. -/
def decodeAPIErrorField (o : List (String × Json)) (key : String) : Option String :=
  match lookupLast o key with
  | none => some ""
  | some j => decodeStrField "" j

/-- Decode of the APIError struct from the JSON object stored under the
envelope error field. -/
def decodeAPIError (o : List (String × Json)) : Option APIError :=
  match decodeAPIErrorField o "type", decodeAPIErrorField o "message",
      decodeAPIErrorField o "code" with
  | some t, some m, some c => some { type := t, message := m, code := c }
  | _, _, _ => none

/-- Decode of the APIResponse envelope struct of client.go from a JSON
value, as json.Decoder.Decode performs it: the top level must be an object
(or null, which leaves both fields at their zero values).  The data field
is captured raw (note a present-but-null data field is captured as the raw
value null, matching json.RawMessage, so it is distinct from an absent
field); the error field must be absent, null, or an object decoding as
APIError.  Returns none on a decode error. -/
def decodeEnvelope (j : Json) : Option (Option Json × Option APIError) :=
  match j with
  | Json.null => some (none, none)
  | Json.obj fields =>
    match lookupLast fields "error" with
    | none => some (lookupLast fields "data", none)
    | some Json.null => some (lookupLast fields "data", none)
    | some (Json.obj o) =>
      match decodeAPIError o with
      | some e => some (lookupLast fields "data", some e)
      | none => none
    | some _ => none
  | _ => none

/-- decodeResponse from client.go: decode the envelope (a failure yields
the failed-to-decode error; the wrapped cause text is elided in this
model); a populated envelope error is returned as the operation error with
its APIError text; otherwise a present data payload is unmarshaled into
the destination, starting from its zero value. -/
def decodeResponse {α : Type} (c : EntityCodec α) (body : Option Json) :
    Except String α :=
  match body with
  | none => Except.error "failed to decode response"
  | some j =>
    match decodeEnvelope j with
    | none => Except.error "failed to decode response"
    | some (dataOpt, errOpt) =>
      match errOpt with
      | some e => Except.error (APIError.errorText e)
      | none =>
        match dataOpt with
        | none => Except.ok c.zero
        | some d =>
          match c.unmarshalInto d c.zero with
          | some v => Except.ok v
          | none => Except.error "failed to unmarshal data"

/-- The shared request helper (method do of client.go), given the response
the server answers with.  The method and path arguments shape the request,
not the handling of the response, and are carried for fidelity only.  The
dest argument models the v parameter: none is a nil destination (no
decode, as in the delete operations); the third component of the result is
the final destination value.  Mirrors the source order exactly: a 404 is
short-circuited to a nil error before any error construction; any other
status of at least 400 yields the handleError error; otherwise the body is
decoded only when a destination was requested. -/
def doRequest {α : Type} (method path : String) (resp : Response)
    (dest : Option (EntityCodec α)) : Nat × Option String × Option α :=
  if resp.statusCode = 404 then
    (resp.statusCode, none, dest.map (fun c => c.zero))
  else if 400 ≤ resp.statusCode then
    (resp.statusCode, some (handleError resp.statusCode resp.body),
      dest.map (fun c => c.zero))
  else
    match dest with
    | none => (resp.statusCode, none, none)
    | some c =>
      match decodeResponse c resp.body with
      | Except.ok v => (resp.statusCode, none, some v)
      | Except.error e => (resp.statusCode, some e, some c.zero)

/-- The uniform Get operation of client.go (GetVPC, GetInstance,
GetSecret, GetScalingGroup, ...): issue the GET through the shared helper;
on error return (nil, err); on a 404 status return (nil, nil); otherwise
return the decoded destination and a nil error. -/
def getEntity {α : Type} (c : EntityCodec α) (path : String)
    (resp : Response) : Option α × Option String :=
  match doRequest "GET" path resp (some c) with
  | (_, some err, _) => (none, some err)
  | (status, none, dest) =>
    if status = 404 then (none, none) else (dest, none)

/-- The uniform Create operation of client.go (CreateVPC, CreateInstance,
...): issue the POST through the shared helper; on error return
(nil, err); otherwise return the destination (the status code is
discarded). -/
def createEntity {α : Type} (c : EntityCodec α) (path : String)
    (resp : Response) : Option α × Option String :=
  match doRequest "POST" path resp (some c) with
  | (_, some err, _) => (none, some err)
  | (_, none, dest) => (dest, none)

/-- The uniform Delete operation of client.go (DeleteVPC, DeleteSecret,
DeleteScalingGroup, ...): issue the DELETE through the shared helper with
a nil destination and return only the error. -/
def deleteEntity (path : String) (resp : Response) : Option String :=
  (doRequest "DELETE" path resp (none : Option (EntityCodec Unit))).2.1

/-- VPC struct from client.go with its json field tags id, name,
cidr_block, status. -/
structure VPC where
  ID : String
  Name : String
  CIDRBlock : String
  Status : String

/-- json.Unmarshal of one object key into a VPC, by field tag; unknown
keys are ignored. -/
def VPC.setField (v : VPC) (key : String) (j : Json) : Option VPC :=
  match key with
  | "id" => (decodeStrField v.ID j).map (fun s => { v with ID := s })
  | "name" => (decodeStrField v.Name j).map (fun s => { v with Name := s })
  | "cidr_block" =>
    (decodeStrField v.CIDRBlock j).map (fun s => { v with CIDRBlock := s })
  | "status" =>
    (decodeStrField v.Status j).map (fun s => { v with Status := s })
  | _ => some v

/-- json.Unmarshal of a JSON value into a VPC: null is a no-op, an object
is decoded field by field, anything else is a type error. -/
def VPC.unmarshalInto : Json → VPC → Option VPC
  | Json.null, v => some v
  | Json.obj fields, v =>
    fields.foldlM (fun acc kv => VPC.setField acc kv.1 kv.2) v
  | _, _ => none

/-- Codec for the VPC entity: Go zero value plus unmarshal. -/
def vpcCodec : EntityCodec VPC :=
  { zero := { ID := "", Name := "", CIDRBlock := "", Status := "" }
    unmarshalInto := VPC.unmarshalInto }

/-- CreateVPC from client.go: POST to the vpcs collection.  The name and
cidr arguments populate the request payload, which does not influence the
modeled response handling. -/
def CreateVPC (name cidr : String) (resp : Response) :
    Option VPC × Option String :=
  createEntity vpcCodec "/vpcs" resp

/-- GetVPC from client.go. -/
def GetVPC (id : String) (resp : Response) : Option VPC × Option String :=
  getEntity vpcCodec ("/vpcs/" ++ id) resp

/-- DeleteVPC from client.go. -/
def DeleteVPC (id : String) (resp : Response) : Option String :=
  deleteEntity ("/vpcs/" ++ id) resp

/-- Secret struct from client.go with its json field tags id, name, value
(omitempty), description. -/
structure Secret where
  ID : String
  Name : String
  Value : String
  Description : String

/-- json.Unmarshal of one object key into a Secret, by field tag; unknown
keys are ignored. -/
def Secret.setField (s : Secret) (key : String) (j : Json) : Option Secret :=
  match key with
  | "id" => (decodeStrField s.ID j).map (fun x => { s with ID := x })
  | "name" => (decodeStrField s.Name j).map (fun x => { s with Name := x })
  | "value" => (decodeStrField s.Value j).map (fun x => { s with Value := x })
  | "description" =>
    (decodeStrField s.Description j).map (fun x => { s with Description := x })
  | _ => some s

/-- json.Unmarshal of a JSON value into a Secret. -/
def Secret.unmarshalInto : Json → Secret → Option Secret
  | Json.null, s => some s
  | Json.obj fields, s =>
    fields.foldlM (fun acc kv => Secret.setField acc kv.1 kv.2) s
  | _, _ => none

/-- Codec for the Secret entity. -/
def secretCodec : EntityCodec Secret :=
  { zero := { ID := "", Name := "", Value := "", Description := "" }
    unmarshalInto := Secret.unmarshalInto }

/-- GetSecret from client.go. -/
def GetSecret (id : String) (resp : Response) :
    Option Secret × Option String :=
  getEntity secretCodec ("/secrets/" ++ id) resp

/-- ScalingGroup struct from client.go. -/
structure ScalingGroup where
  ID : String
  Name : String
  VpcID : String
  LoadBalancerID : String
  Image : String
  Ports : String
  MinInstances : Int
  MaxInstances : Int
  DesiredCount : Int
  Status : String

/-- A terraform-plugin-framework types.String value: null, unknown, or a
known string. -/
inductive TFString where
  | null : TFString
  | unknown : TFString
  | value (s : String) : TFString

/-- ValueString of types.String: the known string, or the empty string for
null and unknown. -/
def TFString.valueString : TFString → String
  | TFString.value s => s
  | _ => ""

/-- A diagnostic appended to resp.Diagnostics: an error or a warning, each
with a summary and a detail. -/
inductive Diagnostic where
  | error (summary detail : String) : Diagnostic
  | warning (summary detail : String) : Diagnostic

/-- Shared summary constant used by the resource layer for client-error
diagnostics.  Its defining file is not present under src; the value is the
literal the repository uses for the same diagnostics in its datasources
layer. -/
def errClient : String := "Client Error"

/-- SecretResourceModel from internal/resources/secret.go. -/
structure SecretResourceModel where
  ID : TFString
  Name : TFString
  Value : TFString
  Description : TFString

/-- Outcome of a framework Read call: an error diagnostic was added and
the state left alone, the resource was removed from state, or the state
was set to an updated model. -/
inductive ReadOutcome (σ : Type) where
  | errored (diag : Diagnostic) : ReadOutcome σ
  | removed : ReadOutcome σ
  | updated (state : σ) : ReadOutcome σ

/-- Read of SecretResource from internal/resources/secret.go, over the
prior state held by the caller and the response the server answers the
GET with.  On a client error an error diagnostic is added; on a nil
entity the resource is removed from state; otherwise id, name and
description are refreshed from the response while the value field is left
exactly as the prior state held it (the source comment: Value is not
returned by Read for security, we keep the one from state/plan). -/
def SecretResource.read (prior : SecretResourceModel) (resp : Response) :
    ReadOutcome SecretResourceModel :=
  match GetSecret prior.ID.valueString resp with
  | (_, some err) =>
    ReadOutcome.errored
      (Diagnostic.error errClient ("Unable to read secret, got error: " ++ err))
  | (none, none) => ReadOutcome.removed
  | (some secret, none) =>
    ReadOutcome.updated
      { prior with
        ID := TFString.value secret.ID
        Name := TFString.value secret.Name
        Description := TFString.value secret.Description }

/-- Update of ScalingGroupResource from internal/resources/scaling_group.go:
no API call is made (the function body only appends this warning). -/
def ScalingGroupResource.update : List Diagnostic :=
  [Diagnostic.warning "Update Not Supported"
    "Updating a scaling group is not supported. It will be recreated if changed."]

/-- Update of SecretResource from internal/resources/secret.go: no API
call is made (the function body only appends this warning). -/
def SecretResource.update : List Diagnostic :=
  [Diagnostic.warning "Update Not Supported"
    "Updating a secret is not currently supported by the API. It will be recreated."]

/-- Update of DNSZoneResource from the DNS zone resource file: the
function body is empty apart from a comment, so no API call is made and no
diagnostic of any kind is appended. -/
def DNSZoneResource.update : List Diagnostic := []

/-- Outcome of the delete wait loop of ScalingGroupResource.Delete: the
Done branch fired and the Delete Timeout error diagnostic (detail: Timed
out waiting for scaling group to be deleted.) was added; a poll errored
and a client error diagnostic was added; or a poll observed the group
gone and the loop returned successfully. -/
inductive PollOutcome where
  | timeoutDiagnostic : PollOutcome
  | errorDiagnostic (msg : String) : PollOutcome
  | deleted : PollOutcome

/-- The wait loop of ScalingGroupResource.Delete over a fake clock, with
the results of the successive GetScalingGroup polls injected.  The ticker
fires every 5 seconds, so the poll of index k is issued at time
5 * (k + 1); doneAt is the time the Done channel of the deadline context
fires.  When the Done instant does not lie strictly after the next tick,
the select takes the Done branch (ties are resolved toward Done in this
model; the claims settled below only use strict separations).  The second
component of the result is the number of polls that were issued. -/
def pollScalingGroupGone (reads : Nat → Option ScalingGroup × Option String)
    (doneAt : Nat) (k : Nat) : PollOutcome × Nat :=
  if doneAt ≤ 5 * (k + 1) then
    (PollOutcome.timeoutDiagnostic, k)
  else
    match reads k with
    | (_, some err) => (PollOutcome.errorDiagnostic err, k + 1)
    | (none, none) => (PollOutcome.deleted, k + 1)
    | (some _, none) => pollScalingGroupGone reads doneAt (k + 1)
termination_by doneAt - 5 * k
decreasing_by omega

/-- The delete wait of ScalingGroupResource.Delete: the deadline context
wraps the caller context with a 10 minute (600 second) timeout, so its
Done channel fires at the earlier of 600 and the instant (if any) at
which the caller cancels.  Both causes run the identical Done branch of
the select. -/
def scalingGroupDeleteWait (reads : Nat → Option ScalingGroup × Option String)
    (cancelAt : Option Nat) : PollOutcome × Nat :=
  pollScalingGroupGone reads
    (match cancelAt with
     | none => 600
     | some t => min 600 t) 0

/-- strings.Split on the colon separator, over strings modeled as
character lists (Go indexes the identifier bytewise; the identifiers at
issue are plain ASCII).  Faithful to Go: the empty string splits into one
empty part, and every separator occurrence opens a new part. -/
def splitOnColon : List Char → List (List Char)
  | [] => [[]]
  | c :: rest =>
    if c = ':' then [] :: splitOnColon rest
    else
      match splitOnColon rest with
      | [] => [[c]]
      | g :: gs => (c :: g) :: gs

/-- Create of LoadBalancerTargetResource synthesizes the stored identifier
as fmt.Sprintf of lbID, a colon, and instanceID. -/
def LoadBalancerTargetResource.makeID (lbID instanceID : List Char) :
    List Char :=
  lbID ++ ':' :: instanceID

/-- ImportState of LoadBalancerTargetResource parses the import
identifier: split on the colon; unless that yields exactly two non-empty
parts, an Unexpected Import Identifier error is raised (modeled as none);
otherwise the parts become load_balancer_id and instance_id. -/
def LoadBalancerTargetResource.parseImportID (id : List Char) :
    Option (List Char × List Char) :=
  match splitOnColon id with
  | [p0, p1] => if p0 = [] ∨ p1 = [] then none else some (p0, p1)
  | _ => none

/-- Helper: a colon-free string is a single split part. -/
theorem splitOnColon_no_colon (l : List Char) (h : ':' ∉ l) :
    splitOnColon l = [l] := by
  induction l with
  | nil => rfl
  | cons c cs ih =>
    have hc : ¬ (c = ':') := fun hh => h (by simp [hh])
    have hcs : ':' ∉ cs := fun hh => h (List.mem_cons_of_mem c hh)
    simp [splitOnColon, hc, ih hcs]

/-- Helper: splitting peels a colon-free prefix before the first colon. -/
theorem splitOnColon_append (p r : List Char) (hp : ':' ∉ p) :
    splitOnColon (p ++ ':' :: r) = p :: splitOnColon r := by
  induction p with
  | nil => simp [splitOnColon]
  | cons c cs ih =>
    have hc : ¬ (c = ':') := fun hh => hp (by simp [hh])
    have hcs : ':' ∉ cs := fun hh => hp (List.mem_cons_of_mem c hh)
    simp [splitOnColon, hc, ih hcs]

/-- C1: for every entity type, Read against a server answering HTTP 404
returns the nil entity pointer together with a nil error, never an error
value, whatever the response body holds; and inside the shared request
helper the 404 status short-circuits to a nil error before any error
construction. -/
theorem read_404_yields_nil_nil {α : Type} (c : EntityCodec α)
    (path : String) (body : Option Json) :
    getEntity c path { statusCode := 404, body := body } = (none, none) ∧
    (doRequest "GET" path { statusCode := 404, body := body }
        (some c)).2.1 = none := by
  constructor <;> rfl

/-- C10: the 404 short-circuit applies to every verb, so Create (POST)
against a server answering 404 returns a nil error and a non-nil pointer
to the zero-valued entity, for every body (the body is never decoded). -/
theorem create_404_nil_error_zero_entity {α : Type} (c : EntityCodec α)
    (path : String) (body : Option Json) :
    createEntity c path { statusCode := 404, body := body } =
      (some c.zero, none) := rfl

/-- C7: for every entity type, Delete returns a nil error whenever the
server answers the DELETE with status 200, 204 or 404 — the absent case
(404) behaves identically to the existing case, with no spurious
error. -/
theorem delete_ok_on_200_204_404 (path : String) (s : Nat)
    (h : s = 200 ∨ s = 204 ∨ s = 404) (body : Option Json) :
    deleteEntity path { statusCode := s, body := body } = none := by
  rcases h with h | h | h <;> subst h <;> rfl

/-- Witness for C7: DeleteVPC of an already-removed id (404) succeeds. -/
theorem delete_ok_on_200_204_404_w :
    DeleteVPC "vpc-1" { statusCode := 404, body := none } = none :=
  delete_ok_on_200_204_404 ("/vpcs/" ++ "vpc-1") 404 (Or.inr (Or.inr rfl))
    none

/-- Counterexample for C3: the DNS Zone resource, whose remote API has no
update endpoint, completes Update silently — it emits no warning and no
diagnostic of any kind, refuting the claim that every such entity always
emits a warning. -/
theorem dns_zone_update_silent :
    DNSZoneResource.update = [] ∧
    ∀ s d, Diagnostic.warning s d ∉ DNSZoneResource.update :=
  ⟨rfl, fun s d h => by simp [DNSZoneResource.update] at h⟩

/-- C3 (amended): the Scaling Group and Secret resources report Update as
a no-op with an Update Not Supported warning, but the DNS Zone resource
performs its no-op Update with no diagnostic at all. -/
theorem update_warning_per_resource :
    (∃ d, ScalingGroupResource.update =
      [Diagnostic.warning "Update Not Supported" d]) ∧
    (∃ d, SecretResource.update =
      [Diagnostic.warning "Update Not Supported" d]) ∧
    DNSZoneResource.update = [] :=
  ⟨⟨_, rfl⟩, ⟨_, rfl⟩, rfl⟩

/-- C8: the Load Balancer target synthesizes its identifier as the
colon-delimited concatenation of the parent and child IDs on create,
and ImportState parses exactly two non-empty parts back (anything else is
rejected); hence ImportState of a created identifier recovers the original
pair whenever neither ID is empty or contains the delimiter. -/
theorem lb_target_id_roundtrip (p c : List Char) (hp : p ≠ [])
    (hc : c ≠ []) (hpcolon : ':' ∉ p) (hccolon : ':' ∉ c) :
    LoadBalancerTargetResource.parseImportID
        (LoadBalancerTargetResource.makeID p c) = some (p, c) ∧
    ∀ id a b, LoadBalancerTargetResource.parseImportID id = some (a, b) →
      splitOnColon id = [a, b] ∧ a ≠ [] ∧ b ≠ [] := by
  constructor
  · unfold LoadBalancerTargetResource.parseImportID
      LoadBalancerTargetResource.makeID
    rw [splitOnColon_append p c hpcolon, splitOnColon_no_colon c hccolon]
    simp [hp, hc]
  · intro id a b h
    unfold LoadBalancerTargetResource.parseImportID at h
    split at h
    · next p0 p1 heq =>
      split at h
      · exact absurd h (by simp)
      · next hne =>
        obtain ⟨rfl, rfl⟩ : p0 = a ∧ p1 = b := by
          constructor <;> injection h with h2 <;> · injection h2 with ha hb
        · push_neg at hne
          exact ⟨heq, hne.1, hne.2⟩
    · exact absurd h (by simp)

/-- Witness for C8: importing the identifier created for load balancer
lb-1 and instance i-9 recovers the pair. -/
theorem lb_target_id_roundtrip_w :
    LoadBalancerTargetResource.parseImportID
        (LoadBalancerTargetResource.makeID "lb-1".toList "i-9".toList) =
      some ("lb-1".toList, "i-9".toList) :=
  (lb_target_id_roundtrip "lb-1".toList "i-9".toList (by decide) (by decide)
    (by decide) (by decide)).1

/-- C4: for every response with status at least 400 other than 404, the
shared helper surfaces handleError on every body; the bare-string error
shape and the object error shape carrying a string message both resolve
to the message prefixed with the bracketed status code; any body in
neither shape falls back to exactly the unexpected-status text; and the
documented 400 response with the structured invalid_input error yields a
Create error whose text contains the words invalid cidr. -/
theorem client_error_resolution (s : Nat) (h400 : 400 ≤ s)
    (h404 : s ≠ 404) :
    (∀ (α : Type) (path : String) (body : Option Json)
        (dest : Option (EntityCodec α)),
        (doRequest "POST" path { statusCode := s, body := body } dest).2.1 =
          some (handleError s body)) ∧
    (∀ (fields : List (String × Json)) (msg : String),
        lookupLast fields "error" = some (Json.str msg) →
        handleError s (some (Json.obj fields)) =
          "[" ++ toString s ++ "] " ++ msg) ∧
    (∀ (fields o : List (String × Json)) (msg : String),
        lookupLast fields "error" = some (Json.obj o) →
        lookupLast o "message" = some (Json.str msg) →
        handleError s (some (Json.obj fields)) =
          "[" ++ toString s ++ "] " ++ msg) ∧
    (∀ body : Option Json, errorMessageOf body = none →
        handleError s body = "unexpected status code: " ++ toString s) ∧
    (∃ pre post,
        (CreateVPC "test-vpc" "bad-cidr"
            { statusCode := 400,
              body := some (Json.obj [("error", Json.obj
                [("type", Json.str "invalid_input"),
                 ("message", Json.str "invalid cidr"),
                 ("code", Json.str "400")])]) }).2 =
          some (pre ++ "invalid cidr" ++ post)) := by
  refine ⟨?_, ?_, ?_, ?_, ⟨"[400] ", "", rfl⟩⟩
  · intro α path body dest
    unfold doRequest
    rw [if_neg h404, if_pos h400]
  · intro fields msg h
    simp [handleError, errorMessageOf, h]
  · intro fields o msg h1 h2
    simp [handleError, errorMessageOf, h1, h2]
  · intro body h
    simp [handleError, h]

/-- Witness for C4: at status 400, the bare-string error shape resolves
to the status-prefixed message. -/
theorem client_error_resolution_w :
    handleError 400 (some (Json.obj [("error", Json.str "bad request")])) =
      "[" ++ toString 400 ++ "] " ++ "bad request" :=
  (client_error_resolution 400 (by decide) (by decide)).2.1
    [("error", Json.str "bad request")] "bad request" rfl

/-- C5: whenever a Secret Read succeeds with a decoded entity (in
particular when the response omits the secret value field, which decodes
as the empty string), the updated caller-held state refreshes id, name
and description from the response while the value field is exactly the
prior value — never zeroed, fabricated or overwritten. -/
theorem secret_read_preserves_value (prior : SecretResourceModel)
    (resp : Response) (s : Secret)
    (h : GetSecret prior.ID.valueString resp = (some s, none)) :
    SecretResource.read prior resp =
      ReadOutcome.updated
        { ID := TFString.value s.ID
          Name := TFString.value s.Name
          Value := prior.Value
          Description := TFString.value s.Description } := by
  unfold SecretResource.read
  rw [h]

/-- Witness for C5: a Read whose response omits the value field leaves
the previously created value hunter2 untouched while refreshing the
name. -/
theorem secret_read_preserves_value_w :
    SecretResource.read
        { ID := TFString.value "sec-1", Name := TFString.value "old-name",
          Value := TFString.value "hunter2", Description := TFString.null }
        { statusCode := 200,
          body := some (Json.obj [("data", Json.obj
            [("id", Json.str "sec-1"), ("name", Json.str "new-name"),
             ("description", Json.str "d")])]) } =
      ReadOutcome.updated
        { ID := TFString.value "sec-1", Name := TFString.value "new-name",
          Value := TFString.value "hunter2",
          Description := TFString.value "d" } :=
  secret_read_preserves_value _ _
    { ID := "sec-1", Name := "new-name", Value := "", Description := "d" }
    rfl

/-- C9: a 2xx response whose envelope decodes with an absent or null
error and an absent or null data field, against a caller that requested a
destination, yields a nil error and a non-nil pointer to the zero-valued
entity — indistinguishable from a fetched entity all of whose fields are
empty.  The unmarshal-of-null hypothesis is the json.Unmarshal no-op on
null, satisfied by every entity codec. -/
theorem empty_envelope_zero_entity {α : Type} (c : EntityCodec α)
    (hnull : ∀ v, c.unmarshalInto Json.null v = some v)
    (path : String) (s : Nat) (h1 : 200 ≤ s) (h2 : s < 300)
    (fields : List (String × Json))
    (herr : lookupLast fields "error" = none ∨
            lookupLast fields "error" = some Json.null)
    (hdata : lookupLast fields "data" = none ∨
             lookupLast fields "data" = some Json.null) :
    getEntity c path { statusCode := s, body := some (Json.obj fields) } =
      (some c.zero, none) := by
  have h404 : ¬ (s = 404) := by omega
  have h400 : ¬ (400 ≤ s) := by omega
  have hdo : doRequest "GET" path
      { statusCode := s, body := some (Json.obj fields) } (some c) =
      (s, none, some c.zero) := by
    unfold doRequest decodeResponse decodeEnvelope
    rcases herr with he | he <;> rcases hdata with hd | hd <;>
      simp [he, hd, h404, h400, hnull]
  unfold getEntity
  rw [hdo]
  simp [h404]

/-- Witness for C9: GetVPC against a 200 response with an empty envelope
object returns a non-nil pointer to the all-empty VPC and a nil error. -/
theorem empty_envelope_zero_entity_w :
    GetVPC "vpc-1" { statusCode := 200, body := some (Json.obj []) } =
      (some { ID := "", Name := "", CIDRBlock := "", Status := "" }, none) :=
  empty_envelope_zero_entity vpcCodec (fun _ => rfl) ("/vpcs/" ++ "vpc-1")
    200 (by decide) (by decide) [] (Or.inl rfl) (Or.inl rfl)

/-- Helper: when every poll that the deadline admits observes the group
still present, the wait loop ends in the Done branch and adds the timeout
diagnostic.  The fuel n bounds the remaining ticks before doneAt. -/
theorem pollGone_timeout_of_present
    (reads : Nat → Option ScalingGroup × Option String) (d : Nat) :
    ∀ n k, d ≤ 5 * (k + 1) + 5 * n →
      (∀ j, k ≤ j → 5 * (j + 1) < d → ∃ g, reads j = (some g, none)) →
      (pollScalingGroupGone reads d k).1 = PollOutcome.timeoutDiagnostic := by
  intro n
  induction n with
  | zero =>
    intro k hk _
    unfold pollScalingGroupGone
    rw [if_pos (by omega)]
  | succ n ih =>
    intro k hk h
    by_cases hle : d ≤ 5 * (k + 1)
    · unfold pollScalingGroupGone
      rw [if_pos hle]
    · obtain ⟨g, hg⟩ := h k le_rfl (by omega)
      unfold pollScalingGroupGone
      rw [if_neg hle, hg]
      exact ih (k + 1) (by omega) (fun j hj hjd => h j (by omega) hjd)

/-- Helper: if the polls up to index i observe the group present, poll i
observes it gone, and the deadline admits poll i, the wait loop returns
successfully right at poll i, having issued i + 1 polls. -/
theorem pollGone_completed_at
    (reads : Nat → Option ScalingGroup × Option String) (d i : Nat)
    (habs : reads i = (none, none)) (hdl : 5 * (i + 1) < d) :
    ∀ n k, i - k = n → k ≤ i →
      (∀ j, k ≤ j → j < i → ∃ g, reads j = (some g, none)) →
      pollScalingGroupGone reads d k = (PollOutcome.deleted, i + 1) := by
  intro n
  induction n with
  | zero =>
    intro k hik hk _
    have hki : k = i := by omega
    subst hki
    unfold pollScalingGroupGone
    rw [if_neg (by omega), habs]
  | succ n ih =>
    intro k hik hk h
    have hki : k < i := by omega
    obtain ⟨g, hg⟩ := h k le_rfl hki
    unfold pollScalingGroupGone
    rw [if_neg (by omega), hg]
    exact ih (k + 1) (by omega) (by omega) (fun j hj hji => h j (by omega) hji)

/-- C6: over an injected sequence of poll results and the fake clock, if
the poll of index i is the first to report absence and the deadline
admits it (its tick, the (i+1)-th, lies strictly within the 600 second
deadline), the wait completes successfully at that very poll — within one
tick of absence first being reported — and if every poll the deadline
admits reports the group present, the wait ends with the timeout
diagnostic. -/
theorem poller_termination
    (reads : Nat → Option ScalingGroup × Option String) (i : Nat)
    (hbefore : ∀ j, j < i → ∃ g, reads j = (some g, none))
    (habs : reads i = (none, none))
    (hdl : 5 * (i + 1) < 600) :
    scalingGroupDeleteWait reads none = (PollOutcome.deleted, i + 1) ∧
    ∀ reads2 : Nat → Option ScalingGroup × Option String,
      (∀ j, 5 * (j + 1) < 600 → ∃ g, reads2 j = (some g, none)) →
      (scalingGroupDeleteWait reads2 none).1 =
        PollOutcome.timeoutDiagnostic := by
  constructor
  · unfold scalingGroupDeleteWait
    exact pollGone_completed_at reads 600 i habs hdl i 0 (by omega)
      (by omega) (fun j _ hji => hbefore j hji)
  · intro reads2 h2
    unfold scalingGroupDeleteWait
    exact pollGone_timeout_of_present reads2 600 120 0 (by omega)
      (fun j _ hjd => h2 j hjd)

/-- Witness for C6 (Scenario B): two polls observe the group, the third
observes it gone, and the wait returns successfully after exactly three
polls. -/
theorem poller_termination_w :
    scalingGroupDeleteWait
      (fun j =>
        if j < 2 then
          (some { ID := "asg-1", Name := "grp", VpcID := "vpc-1",
                  LoadBalancerID := "", Image := "nginx", Ports := "",
                  MinInstances := 1, MaxInstances := 3, DesiredCount := 2,
                  Status := "deleting" }, none)
        else (none, none)) none = (PollOutcome.deleted, 3) :=
  (poller_termination _ 2 (fun j hj => ⟨_, by rw [if_pos hj]⟩) rfl
    (by decide)).1

/-- Counterexample for C2: when the caller cancels at second 7, well
before the 600 second deadline and before any poll reports absence, the
wait loop takes the Done branch and reports the Delete Timeout
diagnostic — the same outcome as deadline expiry — instead of a distinct
cancellation outcome. -/
theorem poller_cancel_reports_timeout_diag :
    scalingGroupDeleteWait
      (fun _ => (some { ID := "asg-1", Name := "grp", VpcID := "vpc-1",
                        LoadBalancerID := "", Image := "nginx", Ports := "",
                        MinInstances := 1, MaxInstances := 3,
                        DesiredCount := 2, Status := "deleting" }, none))
      (some 7) = (PollOutcome.timeoutDiagnostic, 1) := by
  unfold scalingGroupDeleteWait
  unfold pollScalingGroupGone
  norm_num
  unfold pollScalingGroupGone
  norm_num

/-- C2 (amended): an external cancellation at any instant before the
deadline interrupts the wait but produces the very timeout diagnostic
that deadline expiry produces; cancellation is not reported as a distinct
outcome. -/
theorem poller_cancel_same_as_timeout
    (reads : Nat → Option ScalingGroup × Option String) (t : Nat)
    (ht : t < 600)
    (hreads : ∀ j, ∃ g, reads j = (some g, none)) :
    (scalingGroupDeleteWait reads (some t)).1 =
      PollOutcome.timeoutDiagnostic ∧
    (scalingGroupDeleteWait reads none).1 =
      PollOutcome.timeoutDiagnostic := by
  constructor
  · unfold scalingGroupDeleteWait
    refine pollGone_timeout_of_present reads (min 600 t) (min 600 t) 0
      ?_ (fun j _ _ => hreads j)
    omega
  · unfold scalingGroupDeleteWait
    exact pollGone_timeout_of_present reads 600 120 0 (by omega)
      (fun j _ _ => hreads j)

/-- Witness for C2 (amended): cancellation at second 7 yields the timeout
diagnostic. -/
theorem poller_cancel_same_as_timeout_w :
    (scalingGroupDeleteWait
        (fun _ => (some { ID := "asg-2", Name := "grp2", VpcID := "vpc-1",
                          LoadBalancerID := "", Image := "redis", Ports := "",
                          MinInstances := 1, MaxInstances := 3,
                          DesiredCount := 2, Status := "deleting" }, none))
        (some 7)).1 = PollOutcome.timeoutDiagnostic :=
  (poller_cancel_same_as_timeout _ 7 (by decide) (fun _ => ⟨_, rfl⟩)).1

end TheCloud
